import Mathlib

/-!
Shallow embedding of the `include-oracle-sql-args` crate (`src/lib.rs`).

The crate exposes two proc macros:
* `to_uppercase` — parses one identifier and emits its uppercase name as a
  string literal;
* `map` — parses `ident* => (string-literal ((':' | '#') ident)?)*` and emits
  one expression packaging the declared parameters: the bare identifier when
  there is exactly one declared parameter, a positional tuple (padded with a
  trailing `()` when exactly two parameters) when the declared list equals the
  reference list, and a tuple of `("UPPERCASE_NAME", value)` pairs otherwise.

Output token streams are modelled by `Tok` (a `group` is a
parenthesis-delimited `proc_macro2::Group`); macro input token streams by
`InTok` (at the granularity `syn` consumes them: `=>` is one token).
-/

/-- Output tokens built by the macros (`proc_macro2` tokens as the crate uses
them: identifiers, alone-spaced punctuation, string literals, and
parenthesis-delimited groups). -/
inductive Tok where
  | ident (s : String)
  | punct (c : Char)
  | strLit (s : String)
  | group (ts : List Tok)

mutual

/-- Decidable equality for output tokens (the nested `List` forces a manual
instance). -/
def Tok.decEq : (a b : Tok) → Decidable (a = b)
  | .ident s, .ident t =>
      if h : s = t then .isTrue (by rw [h]) else .isFalse fun hc => h (by cases hc; rfl)
  | .punct c, .punct d =>
      if h : c = d then .isTrue (by rw [h]) else .isFalse fun hc => h (by cases hc; rfl)
  | .strLit s, .strLit t =>
      if h : s = t then .isTrue (by rw [h]) else .isFalse fun hc => h (by cases hc; rfl)
  | .group xs, .group ys =>
      match Tok.decEqList xs ys with
      | .isTrue h => .isTrue (by rw [h])
      | .isFalse h => .isFalse fun hc => h (by cases hc; rfl)
  | .ident _, .punct _ => .isFalse fun hc => nomatch hc
  | .ident _, .strLit _ => .isFalse fun hc => nomatch hc
  | .ident _, .group _ => .isFalse fun hc => nomatch hc
  | .punct _, .ident _ => .isFalse fun hc => nomatch hc
  | .punct _, .strLit _ => .isFalse fun hc => nomatch hc
  | .punct _, .group _ => .isFalse fun hc => nomatch hc
  | .strLit _, .ident _ => .isFalse fun hc => nomatch hc
  | .strLit _, .punct _ => .isFalse fun hc => nomatch hc
  | .strLit _, .group _ => .isFalse fun hc => nomatch hc
  | .group _, .ident _ => .isFalse fun hc => nomatch hc
  | .group _, .punct _ => .isFalse fun hc => nomatch hc
  | .group _, .strLit _ => .isFalse fun hc => nomatch hc

/-- Decidable equality for lists of output tokens. -/
def Tok.decEqList : (xs ys : List Tok) → Decidable (xs = ys)
  | [], [] => .isTrue rfl
  | [], _ :: _ => .isFalse fun hc => nomatch hc
  | _ :: _, [] => .isFalse fun hc => nomatch hc
  | x :: xs, y :: ys =>
      match Tok.decEq x y, Tok.decEqList xs ys with
      | .isTrue h1, .isTrue h2 => .isTrue (by rw [h1, h2])
      | .isFalse h1, _ => .isFalse fun hc => by cases hc; exact h1 rfl
      | _, .isFalse h2 => .isFalse fun hc => by cases hc; exact h2 rfl

end

instance : DecidableEq Tok := Tok.decEq

/-- Input tokens of a `map!` invocation, at the granularity `MapArgs::parse`
consumes them: identifiers, the `=>` separator, string literals, the `:` and
`#` binding-mode markers, and any other token (which the parser rejects). -/
inductive InTok where
  | ident (s : String)
  | fatArrow
  | litStr (s : String)
  | colon
  | hash
  | other (s : String)
deriving DecidableEq, Repr

/-- Embedding of Rust's `str::to_uppercase` as the crate applies it to
identifiers: character-wise uppercase conversion. -/
def strToUppercase (s : String) : String :=
  String.mk (s.data.map Char.toUpper)

/-- Embedding of the `to_uppercase` proc macro body (`src/lib.rs:19-26`):
convert the identifier's name to uppercase and emit it as one string
literal token. -/
def to_uppercase (in_name : String) : List Tok :=
  [Tok.strLit (strToUppercase in_name)]

/-- The parse result of `MapArgs::parse` (`src/lib.rs:137-140`): the declared
method parameter identifiers and the identifiers referenced by the template
placeholders.  As in the source, nothing else — in particular no binding
modes — is stored. -/
structure MapArgs where
  method_args : List String
  sql_args : List String
deriving DecidableEq, Repr

/-- Header state of `MapArgs::parse` (`src/lib.rs:144-149`): read identifiers
until `=>` is seen, then consume the `=>`.  `syn`'s `Ident` parse fails on a
non-identifier token and on end of input, which the loop reaches whenever
`=>` never occurs. -/
def parseMethodArgs : List InTok → Except String (List String × List InTok)
  | [] => .error "expected identifier"
  | InTok.fatArrow :: rest => .ok ([], rest)
  | InTok.ident s :: rest => do
      let (args, rest') ← parseMethodArgs rest
      .ok (s :: args, rest')
  | _ :: _ => .error "expected identifier"

/-- Body state of `MapArgs::parse` (`src/lib.rs:150-166`): while input
remains, read one string literal; if input remains after it, read a `:` or
`#` marker (any other token fails the lookahead) followed by one identifier,
record the identifier, and loop.  The marker itself is consumed and
discarded. -/
def parseSqlArgs : List InTok → Except String (List String)
  | [] => .ok []
  | [InTok.litStr _] => .ok []
  | InTok.litStr _ :: InTok.colon :: InTok.ident s :: rest => do
      let args ← parseSqlArgs rest
      .ok (s :: args)
  | InTok.litStr _ :: InTok.hash :: InTok.ident s :: rest => do
      let args ← parseSqlArgs rest
      .ok (s :: args)
  | InTok.litStr _ :: InTok.colon :: _ => .error "expected identifier"
  | InTok.litStr _ :: InTok.hash :: _ => .error "expected identifier"
  | InTok.litStr _ :: _ :: _ => .error "expected one of `:` or `#`"
  | _ :: _ => .error "expected string literal"

/-- `MapArgs::parse` (`src/lib.rs:142-168`): the header state followed by the
body state. -/
def MapArgs.parse (input : List InTok) : Except String MapArgs := do
  let (method_args, rest) ← parseMethodArgs input
  let sql_args ← parseSqlArgs rest
  .ok { method_args, sql_args }

/-- The `name_value` stream built for one declared parameter in the named
branch of `map` (`src/lib.rs:126-129`): the uppercase name as a string
literal, a comma, and the identifier. -/
def name_value (arg : String) : List Tok :=
  [Tok.strLit (strToUppercase arg), Tok.punct ',', Tok.ident arg]

/-- The items loop of the named branch of `map` (`src/lib.rs:121-131`): for
each declared parameter, append a comma separator unless `items` is still
empty, then append the parenthesized `name_value` group. -/
def namedItems (method_args : List String) (items : List Tok) : List Tok :=
  match method_args with
  | [] => items
  | arg :: rest =>
      let items := if items.isEmpty then items else items ++ [Tok.punct ',']
      namedItems rest (items ++ [Tok.group (name_value arg)])

/-- The `map` proc macro body after parsing (`src/lib.rs:103-135`):
* one declared parameter — emit the identifier itself;
* declared list equal to the reference list — emit the parenthesized
  comma-separated identifiers, with a trailing comma and an empty group
  appended when there are exactly two of them;
* otherwise — emit the parenthesized comma-separated `name_value` groups. -/
def map (a : MapArgs) : List Tok :=
  if a.method_args.length == 1 then
    [Tok.ident (a.method_args.headD "")]
  else if a.method_args == a.sql_args then
    if a.method_args.length == 2 then
      [Tok.group ((a.method_args.flatMap fun x => [Tok.ident x, Tok.punct ',']) ++ [Tok.group []])]
    else
      [Tok.group (List.intersperse (Tok.punct ',') (a.method_args.map Tok.ident))]
  else
    [Tok.group (namedItems a.method_args [])]

/-- The whole `map` proc macro (`src/lib.rs:103-135`): parse the invocation,
then emit the mapped expression; a parse failure aborts the expansion. -/
def mapExpansion (input : List InTok) : Except String (List Tok) :=
  match MapArgs.parse input with
  | .error e => .error e
  | .ok args => .ok (map args)

/-- Canonicalize a binding-mode marker: `#` becomes `:`; every other token is
unchanged.  Two invocations are "identical except for the choice of marker
character" exactly when their canonicalizations coincide. -/
def canonTok : InTok → InTok
  | InTok.hash => InTok.colon
  | t => t

/-- Canonicalize every token of an invocation. -/
def canonMarkers (input : List InTok) : List InTok :=
  input.map canonTok

example : map ⟨["arg"], ["arg", "arg", "arg"]⟩ = [Tok.ident "arg"] := by decide
example : map ⟨["a1", "a2"], ["a1", "a2"]⟩ =
    [Tok.group [Tok.ident "a1", Tok.punct ',', Tok.ident "a2", Tok.punct ',', Tok.group []]] := by
  decide
example : map ⟨["a1", "a2", "a3"], ["a1", "a2", "a3"]⟩ =
    [Tok.group [Tok.ident "a1", Tok.punct ',', Tok.ident "a2", Tok.punct ',', Tok.ident "a3"]] := by
  decide
example : map ⟨["id", "name"], ["name", "name", "id"]⟩ =
    [Tok.group [Tok.group [Tok.strLit "ID", Tok.punct ',', Tok.ident "id"], Tok.punct ',',
      Tok.group [Tok.strLit "NAME", Tok.punct ',', Tok.ident "name"]]] := by decide
example : MapArgs.parse [InTok.ident "a", InTok.fatArrow, InTok.litStr "q",
    InTok.colon, InTok.ident "a"] = .ok ⟨["a"], ["a"]⟩ := rfl
example : map ⟨[], ["x"]⟩ = [Tok.group []] := by decide
example : map ⟨[], []⟩ = [Tok.group []] := by decide

/-- Rust's char-wise uppercase conversion is idempotent on characters. -/
theorem toUpper_idem (c : Char) : c.toUpper.toUpper = c.toUpper := by
  unfold Char.toUpper
  by_cases h : c.toNat ≥ 97 ∧ c.toNat ≤ 122
  · simp only [h, if_true]
    obtain ⟨h1, h2⟩ := h
    interval_cases hn : c.toNat <;> simp_all
  · simp [h]

/-- Character-wise uppercase conversion of a string is idempotent. -/
theorem strToUppercase_idem (s : String) :
    strToUppercase (strToUppercase s) = strToUppercase s := by
  unfold strToUppercase
  refine congrArg String.mk ?_
  rw [List.map_map]
  exact List.map_congr_left fun c _ => toUpper_idem c

/-- Unfolding the items loop of the named branch: once the accumulator is
nonempty, each remaining declared parameter contributes a comma and its
`name_value` group, in order. -/
theorem namedItems_append (args : List String) :
    ∀ items : List Tok, items ≠ [] →
      namedItems args items =
        items ++ args.flatMap (fun a => [Tok.punct ',', Tok.group (name_value a)]) := by
  induction args with
  | nil => intro items _; simp [namedItems]
  | cons a rest ih =>
      intro items hne
      have hfalse : items.isEmpty = false := by
        cases items with
        | nil => exact absurd rfl hne
        | cons x xs => rfl
      simp only [namedItems, hfalse, Bool.false_eq_true, if_false]
      rw [ih (items ++ [Tok.punct ','] ++ [Tok.group (name_value a)]) (by simp)]
      simp

/-- The header state is oblivious to the `:` vs `#` distinction: canonicalizing
the markers of the input canonicalizes the unconsumed remainder and changes
nothing else. -/
theorem parseMethodArgs_canon (xs : List InTok) :
    parseMethodArgs (xs.map canonTok) =
      (parseMethodArgs xs).map (fun p => (p.1, p.2.map canonTok)) := by
  induction xs using parseMethodArgs.induct with
  | case1 => rfl
  | case2 rest => rfl
  | case3 s rest ih =>
      simp only [List.map, parseMethodArgs, canonTok, ih]
      cases parseMethodArgs rest with
      | error e => rfl
      | ok p => rfl
  | case4 head tail h1 h2 =>
      cases head with
      | ident v => exact absurd rfl (h2 v)
      | fatArrow => exact absurd rfl h1
      | litStr u => rfl
      | colon => rfl
      | hash => rfl
      | other u => rfl

/-- The body state is oblivious to the `:` vs `#` distinction: it consumes
either marker the same way and records only the identifier. -/
theorem parseSqlArgs_canon (xs : List InTok) :
    parseSqlArgs (xs.map canonTok) = parseSqlArgs xs := by
  induction xs using parseSqlArgs.induct with
  | case1 => rfl
  | case2 _ => rfl
  | case3 _ _ _ ih => simp [List.map, canonTok, parseSqlArgs, ih]
  | case4 _ _ _ ih => simp [List.map, canonTok, parseSqlArgs, ih]
  | case5 s tail h =>
      match tail, h with
      | [], _ => rfl
      | InTok.ident v :: ts, h => exact absurd rfl (h v ts)
      | InTok.fatArrow :: ts, _ => rfl
      | InTok.litStr u :: ts, _ => rfl
      | InTok.colon :: ts, _ => rfl
      | InTok.hash :: ts, _ => rfl
      | InTok.other u :: ts, _ => rfl
  | case6 s tail h =>
      match tail, h with
      | [], _ => rfl
      | InTok.ident v :: ts, h => exact absurd rfl (h v ts)
      | InTok.fatArrow :: ts, _ => rfl
      | InTok.litStr u :: ts, _ => rfl
      | InTok.colon :: ts, _ => rfl
      | InTok.hash :: ts, _ => rfl
      | InTok.other u :: ts, _ => rfl
  | case7 => simp_all [parseSqlArgs, canonTok]
  | case8 head tail h1 h2 =>
      cases head with
      | litStr u =>
          cases tail with
          | nil => simp_all
          | cons a b => simp_all
      | ident v => rfl
      | fatArrow => rfl
      | colon => rfl
      | hash => rfl
      | other u => rfl

/-- The whole parse is oblivious to the `:` vs `#` distinction. -/
theorem parse_canonMarkers (xs : List InTok) :
    MapArgs.parse (canonMarkers xs) = MapArgs.parse xs := by
  unfold MapArgs.parse canonMarkers
  rw [parseMethodArgs_canon]
  cases parseMethodArgs xs with
  | error e => rfl
  | ok p =>
      simp only [Except.map]
      show Except.bind (parseSqlArgs (List.map canonTok p.2)) _ = _
      rw [parseSqlArgs_canon]
      rfl

/-- The whole expansion is oblivious to the `:` vs `#` distinction. -/
theorem mapExpansion_canonMarkers (xs : List InTok) :
    mapExpansion (canonMarkers xs) = mapExpansion xs := by
  unfold mapExpansion
  rw [parse_canonMarkers]

/-- Claim C1: with exactly one declared parameter the `map` output is the bare
parameter identifier itself, with no wrapping container, whatever the
reference list of the template body is (it may reference the parameter zero,
one, or many times). -/
theorem map_single_param_direct (p : String) (sargs : List String) :
    map ⟨[p], sargs⟩ = [Tok.ident p] := rfl

/-- Claim C2: when the declared parameter list equals the reference list and
there are exactly two declared parameters, the `map` output is a 3-element
tuple: the two parameter values in declared order followed by the empty unit
group `()`. -/
theorem map_two_params_positional_pad (p q : String) :
    map ⟨[p, q], [p, q]⟩ =
      [Tok.group [Tok.ident p, Tok.punct ',', Tok.ident q, Tok.punct ',', Tok.group []]] := by
  simp [map]

/-- Claim C3: with at least two declared parameters and a reference list that
differs from the declared list, the `map` output is one parenthesized tuple
holding exactly one `("UPPERCASE_NAME", value)` pair per declared parameter,
in declaration order, independent of how often or in what order each name is
referenced. -/
theorem map_mismatch_named_pairs (p q : String) (rest : List String) (sargs : List String)
    (h : p :: q :: rest ≠ sargs) :
    map ⟨p :: q :: rest, sargs⟩ =
      [Tok.group (Tok.group (name_value p) ::
        (q :: rest).flatMap fun a => [Tok.punct ',', Tok.group (name_value a)])] := by
  have hne : ((p :: q :: rest) == sargs) = false := by
    simp only [beq_eq_false_iff_ne, ne_eq]
    exact h
  simp only [map, List.length_cons, hne, Bool.false_eq_true, if_false]
  have h1 : (rest.length + 1 + 1 == 1) = false := by
    simp
  simp only [h1, Bool.false_eq_true, if_false]
  rw [show namedItems (p :: q :: rest) [] = namedItems (q :: rest) [Tok.group (name_value p)]
    from rfl]
  rw [namedItems_append (q :: rest) [Tok.group (name_value p)] (by simp)]
  simp

/-- Witness for claim C3 at the worked example `declared=[id,name]`,
`refs=[name,name,id]`. -/
theorem map_mismatch_named_pairs_witness :
    map ⟨["id", "name"], ["name", "name", "id"]⟩ =
      [Tok.group (Tok.group (name_value "id") ::
        List.flatMap ["name"] (fun a => [Tok.punct ',', Tok.group (name_value a)]))] :=
  map_mismatch_named_pairs "id" "name" [] ["name", "name", "id"] (by decide)

/-- Claim C4 counterexample: at `declared = refs = [a]` (so `n = 1 ≠ 2` and the
declared list equals the reference list) the output is the bare identifier,
not a flat positional tuple of one element. -/
theorem map_single_equal_not_tuple :
    map ⟨["a"], ["a"]⟩ = [Tok.ident "a"] ∧
    map ⟨["a"], ["a"]⟩ ≠
      [Tok.group (List.intersperse (Tok.punct ',') (List.map Tok.ident ["a"]))] := by
  constructor
  · rfl
  · decide

/-- Claim C4 as amended: when the declared parameter list equals the reference
list and the number of declared parameters is neither 1 (where the Direct rule
fires first and yields the bare value) nor 2 (where the padded rule fires),
the `map` output is a flat positional tuple of exactly the declared
parameters, comma separated, in declared order. -/
theorem map_positional_flat_tuple (margs : List String)
    (h1 : margs.length ≠ 1) (h2 : margs.length ≠ 2) :
    map ⟨margs, margs⟩ =
      [Tok.group (List.intersperse (Tok.punct ',') (margs.map Tok.ident))] := by
  simp [map, h1, h2]

/-- Witness for the amended claim C4 at three declared parameters referenced
once each, in order. -/
theorem map_positional_flat_tuple_witness :
    map ⟨["a", "b", "c"], ["a", "b", "c"]⟩ =
      [Tok.group (List.intersperse (Tok.punct ',') (List.map Tok.ident ["a", "b", "c"]))] :=
  map_positional_flat_tuple ["a", "b", "c"] (by decide) (by decide)

/-- Claim C10: with zero declared parameters the mapping stage still succeeds
and emits the empty tuple `()`, whether or not the template body references
anything (empty reference list: positional branch; nonempty: named branch over
zero declared parameters). -/
theorem map_zero_params_unit (sargs : List String) :
    map ⟨[], sargs⟩ = [Tok.group []] := by
  cases sargs <;> rfl

/-- Claim C5 counterexample: two invocations whose placeholders use different
binding-mode markers (`:a ... #b` versus `#a ... :b`) parse to the very same
`MapArgs` value, so the parse result cannot retain the binding mode of any
placeholder: `MapArgs` stores only the identifier lists. -/
theorem parse_discards_markers :
    MapArgs.parse [InTok.ident "a", InTok.ident "b", InTok.fatArrow, InTok.litStr "q",
        InTok.colon, InTok.ident "a", InTok.litStr "r", InTok.hash, InTok.ident "b"] =
      .ok ⟨["a", "b"], ["a", "b"]⟩ ∧
    MapArgs.parse [InTok.ident "a", InTok.ident "b", InTok.fatArrow, InTok.litStr "q",
        InTok.hash, InTok.ident "a", InTok.litStr "r", InTok.colon, InTok.ident "b"] =
      .ok ⟨["a", "b"], ["a", "b"]⟩ := ⟨rfl, rfl⟩

/-- Claim C5 as amended: the parser consumes and validates the binding-mode
marker of each placeholder but does not retain it; the parse result holds only
the declared and referenced identifier lists, so any two invocations that are
identical up to the choice of markers parse to identical results. -/
theorem parse_marker_invariant (xs ys : List InTok)
    (h : canonMarkers xs = canonMarkers ys) :
    MapArgs.parse xs = MapArgs.parse ys := by
  rw [← parse_canonMarkers xs, h, parse_canonMarkers]

/-- Witness for the amended claim C5: the same invocation with a `:` marker
and with a `#` marker parses identically. -/
theorem parse_marker_invariant_witness :
    MapArgs.parse [InTok.fatArrow, InTok.litStr "q", InTok.colon, InTok.ident "x"] =
      MapArgs.parse [InTok.fatArrow, InTok.litStr "q", InTok.hash, InTok.ident "x"] :=
  parse_marker_invariant
    [InTok.fatArrow, InTok.litStr "q", InTok.colon, InTok.ident "x"]
    [InTok.fatArrow, InTok.litStr "q", InTok.hash, InTok.ident "x"] rfl

/-- Claim C6: `to_uppercase` emits exactly the uppercase string literal of the
identifier's spelling — a total function of the spelling alone — and the
uppercase conversion is idempotent. -/
theorem to_uppercase_pure_idempotent (s : String) :
    to_uppercase s = [Tok.strLit (strToUppercase s)] ∧
    strToUppercase (strToUppercase s) = strToUppercase s :=
  ⟨rfl, strToUppercase_idem s⟩

/-- Claim C7: in the body state, after a literal segment with input remaining,
anything other than a `:` or `#` marker fails the parse, a marker followed by
a non-identifier fails the parse, and a marker at the end of input fails the
parse. -/
theorem parseSqlArgs_body_grammar :
    (∀ (s : String) (t : InTok) (ts : List InTok), t ≠ InTok.colon → t ≠ InTok.hash →
      ∃ e, parseSqlArgs (InTok.litStr s :: t :: ts) = .error e) ∧
    (∀ (s : String) (m t : InTok) (ts : List InTok), (m = InTok.colon ∨ m = InTok.hash) →
      (∀ v, t ≠ InTok.ident v) →
      ∃ e, parseSqlArgs (InTok.litStr s :: m :: t :: ts) = .error e) ∧
    (∀ (s : String) (m : InTok), (m = InTok.colon ∨ m = InTok.hash) →
      ∃ e, parseSqlArgs [InTok.litStr s, m] = .error e) := by
  refine ⟨?_, ?_, ?_⟩
  · intro s t ts hc hh
    cases t with
    | ident v => exact ⟨_, rfl⟩
    | fatArrow => exact ⟨_, rfl⟩
    | litStr u => exact ⟨_, rfl⟩
    | colon => exact absurd rfl hc
    | hash => exact absurd rfl hh
    | other u => exact ⟨_, rfl⟩
  · intro s m t ts hm ht
    obtain rfl | rfl := hm <;>
      cases t with
      | ident v => exact absurd rfl (ht v)
      | fatArrow => exact ⟨_, rfl⟩
      | litStr u => exact ⟨_, rfl⟩
      | colon => exact ⟨_, rfl⟩
      | hash => exact ⟨_, rfl⟩
      | other u => exact ⟨_, rfl⟩
  · intro s m hm
    obtain rfl | rfl := hm
    · exact ⟨_, rfl⟩
    · exact ⟨_, rfl⟩

/-- Witness for claim C7: a non-marker token after a literal, a literal right
after a marker, and a marker at end of input each fail the body parse. -/
theorem parseSqlArgs_body_grammar_witness :
    (∃ e, parseSqlArgs [InTok.litStr "q", InTok.ident "x"] = .error e) ∧
    (∃ e, parseSqlArgs [InTok.litStr "q", InTok.colon, InTok.litStr "r"] = .error e) ∧
    (∃ e, parseSqlArgs [InTok.litStr "q", InTok.hash] = .error e) :=
  ⟨parseSqlArgs_body_grammar.1 "q" (InTok.ident "x") [] (by decide) (by decide),
   parseSqlArgs_body_grammar.2.1 "q" InTok.colon (InTok.litStr "r") [] (Or.inl rfl)
     (fun v hv => nomatch hv),
   parseSqlArgs_body_grammar.2.2 "q" InTok.hash (Or.inr rfl)⟩

/-- Claim C8: on every parser-accepted input the mapping stage succeeds (it
emits `map args`), and the emitted expression is exactly one of the three
shapes — Direct (one declared parameter), Positional or Positional+Pad
(declared list equal to the reference list), or Named (the lists differ);
the guards of the three disjuncts are mutually exclusive. -/
theorem map_total_three_shapes (input : List InTok) (args : MapArgs)
    (h : MapArgs.parse input = .ok args) :
    mapExpansion input = .ok (map args) ∧
    ((∃ p, args.method_args = [p] ∧ map args = [Tok.ident p]) ∨
     (args.method_args.length ≠ 1 ∧ args.method_args = args.sql_args ∧
       map args = [Tok.group (if args.method_args.length = 2
         then (args.method_args.flatMap fun x => [Tok.ident x, Tok.punct ',']) ++ [Tok.group []]
         else List.intersperse (Tok.punct ',') (args.method_args.map Tok.ident))]) ∨
     (args.method_args.length ≠ 1 ∧ args.method_args ≠ args.sql_args ∧
       map args = [Tok.group (namedItems args.method_args [])])) := by
  refine ⟨by simp [mapExpansion, h], ?_⟩
  by_cases h1 : args.method_args.length = 1
  · obtain ⟨p, hp⟩ := List.length_eq_one.mp h1
    exact Or.inl ⟨p, hp, by simp [map, hp]⟩
  · by_cases h2 : args.method_args = args.sql_args
    · refine Or.inr (Or.inl ⟨h1, h2, ?_⟩)
      have h1s : args.sql_args.length ≠ 1 := h2 ▸ h1
      by_cases h3 : args.method_args.length = 2
      · have h3s : args.sql_args.length = 2 := h2 ▸ h3
        simp [map, h2, h1s, h3s]
      · have h3s : args.sql_args.length ≠ 2 := h2 ▸ h3
        simp [map, h2, h1s, h3s]
    · exact Or.inr (Or.inr ⟨h1, h2, by simp [map, h1, h2]⟩)

/-- Witness for claim C8 at the accepted invocation `a b => "q" :a "r" :b`. -/
theorem map_total_three_shapes_witness :
    mapExpansion [InTok.ident "a", InTok.ident "b", InTok.fatArrow, InTok.litStr "q",
        InTok.colon, InTok.ident "a", InTok.litStr "r", InTok.colon, InTok.ident "b"] =
      .ok (map ⟨["a", "b"], ["a", "b"]⟩) ∧
    ((∃ p, (["a", "b"] : List String) = [p] ∧
        map ⟨["a", "b"], ["a", "b"]⟩ = [Tok.ident p]) ∨
     ((["a", "b"] : List String).length ≠ 1 ∧ (["a", "b"] : List String) = ["a", "b"] ∧
       map ⟨["a", "b"], ["a", "b"]⟩ = [Tok.group (if (["a", "b"] : List String).length = 2
         then ((["a", "b"] : List String).flatMap fun x => [Tok.ident x, Tok.punct ',']) ++
           [Tok.group []]
         else List.intersperse (Tok.punct ',')
           ((["a", "b"] : List String).map Tok.ident))]) ∨
     ((["a", "b"] : List String).length ≠ 1 ∧ (["a", "b"] : List String) ≠ ["a", "b"] ∧
       map ⟨["a", "b"], ["a", "b"]⟩ = [Tok.group (namedItems ["a", "b"] [])])) :=
  map_total_three_shapes
    [InTok.ident "a", InTok.ident "b", InTok.fatArrow, InTok.litStr "q",
      InTok.colon, InTok.ident "a", InTok.litStr "r", InTok.colon, InTok.ident "b"]
    ⟨["a", "b"], ["a", "b"]⟩ rfl

/-- Claim C9: two invocations that are identical except for the choice of
binding-mode marker (`:` versus `#`) at any subset of placeholders expand to
identical results: the marker plays no role in the mapping decision or in the
emitted tokens. -/
theorem mapExpansion_marker_invariant (xs ys : List InTok)
    (h : canonMarkers xs = canonMarkers ys) :
    mapExpansion xs = mapExpansion ys := by
  rw [← mapExpansion_canonMarkers xs, h, mapExpansion_canonMarkers]

/-- Witness for claim C9: the worked `id out_name` example expands identically
with a by-value and with a by-reference marker on the second placeholder. -/
theorem mapExpansion_marker_invariant_witness :
    mapExpansion [InTok.ident "id", InTok.ident "out_name", InTok.fatArrow,
        InTok.litStr "u", InTok.colon, InTok.ident "id", InTok.litStr "r",
        InTok.colon, InTok.ident "out_name"] =
      mapExpansion [InTok.ident "id", InTok.ident "out_name", InTok.fatArrow,
        InTok.litStr "u", InTok.colon, InTok.ident "id", InTok.litStr "r",
        InTok.hash, InTok.ident "out_name"] :=
  mapExpansion_marker_invariant
    [InTok.ident "id", InTok.ident "out_name", InTok.fatArrow, InTok.litStr "u",
      InTok.colon, InTok.ident "id", InTok.litStr "r", InTok.colon, InTok.ident "out_name"]
    [InTok.ident "id", InTok.ident "out_name", InTok.fatArrow, InTok.litStr "u",
      InTok.colon, InTok.ident "id", InTok.litStr "r", InTok.hash, InTok.ident "out_name"]
    rfl
